import Mathlib

/-!
Shallow embedding of the distributed shared-canvas coordinator in
`hw/task_6_bouncing_ball/mosquito/main.py`: membership tracking from
heartbeats, minimum-id leader election, the leader's physics tick
(horizontal wrap, vertical bounce), the follower viewport projection,
and the MQTT receive callback.
-/

namespace Mosquito

/-! ### Configuration constants (main.py, section 1) -/

def SCREEN_HEIGHT : Int := 16
def SCREEN_WIDTH : Int := 8
def PICO_TIMEOUT_S : Rat := 7/2
def TOPIC_HEARTBEAT : String := "pico/heartbeat"
def TOPIC_BALL_POS : String := "pico/ball_pos"

/-! ### Canonical shared state

`current_ball_state` in the source is a dict with keys `pos`, `vel`,
`total_size`, `order`; positions and velocities are Python ints, modelled
as `Int`. `total_size` is `[total_height, total_width]` in that order,
exactly as the source builds it. -/

structure BallState where
  pos : Int × Int
  vel : Int × Int
  total_size : Int × Int
  order : List Int
deriving DecidableEq, Repr

/-! ### Membership table

`active_picos` is a Python dict from pico id to last-seen timestamp.
A dict is modelled as an association list with unique keys in insertion
order; assignment `active_picos[pico_id] = now` refreshes the entry in
place when the key exists and appends it otherwise, matching dict
insertion-order semantics. Timestamps (`time.time()`) are modelled as `Rat`. -/

def record_heartbeat (table : List (Int × Rat)) (id : Int) (now : Rat) :
    List (Int × Rat) :=
  if table.any (fun p => p.1 == id) then
    table.map (fun p => if p.1 == id then (p.1, now) else p)
  else
    table ++ [(id, now)]

/-- `prune_picos` (main.py line 215): delete every entry whose timestamp is
    more than `PICO_TIMEOUT_S` old. -/
def prune_picos (table : List (Int × Rat)) (now : Rat) : List (Int × Rat) :=
  table.filter (fun p => !decide (now - p.2 > PICO_TIMEOUT_S))

/-- `sorted(active_picos.keys())` as used in `run` and `main_physics_loop`. -/
def sorted_keys (table : List (Int × Rat)) : List Int :=
  List.insertionSort (· ≤ ·) (table.map (·.1))

/-- Live ids at `now`: prune, then sort the remaining keys (loop step 3
    followed by the `sorted(active_picos.keys())` of step 4). -/
def live_ids (table : List (Int × Rat)) (now : Rat) : List Int :=
  sorted_keys (prune_picos table now)

/-- The membership table produced by a sequence of recorded heartbeats
    (each element an `(id, timestamp)` arrival), starting empty. -/
def build_table (events : List (Int × Rat)) : List (Int × Rat) :=
  events.foldl (fun t e => record_heartbeat t e.1 e.2) []

/-- Timestamp of the most recent heartbeat for `id` in an event sequence
    (later list entries are later arrivals). -/
def last_heartbeat : List (Int × Rat) → Int → Option Rat
  | [], _ => none
  | e :: rest, id =>
    match last_heartbeat rest id with
    | some t => some t
    | none => if e.1 = id then some e.2 else none

/-- Association-list lookup, the dict read `active_picos[pico_id]`. -/
def lookup_id : List (Int × Rat) → Int → Option Rat
  | [], _ => none
  | p :: rest, id => if p.1 = id then some p.2 else lookup_id rest id

/-! ### Leader election

`run` (main.py lines 256-258): `active_ids = sorted(active_picos.keys());
main_pico_id = active_ids[0]`. -/

def elect (ids : List Int) (h : ids ≠ []) : Int := ids.head h

/-! ### Simulation tick

`main_physics_loop` (main.py lines 156-201) with the publish side effect
dropped: the new state it builds and installs as `current_ball_state`.
The horizontal `%` is Python's modulo, which for a positive modulus is
Euclidean modulo, i.e. `Int.emod` (`%` on `Int`). -/

def main_physics_tick (state : BallState) (active_ids : List Int) : BallState :=
  let total_width : Int := (active_ids.length : Int) * SCREEN_WIDTH
  let total_height : Int := SCREEN_HEIGHT
  let x : Int := (state.pos.1 + state.vel.1) % total_width
  let y1 : Int := state.pos.2 + state.vel.2
  if y1 ≤ 0 then
    { pos := (x, 0), vel := (state.vel.1, -state.vel.2),
      total_size := (total_height, total_width), order := active_ids }
  else if y1 ≥ total_height - 1 then
    { pos := (x, total_height - 1), vel := (state.vel.1, -state.vel.2),
      total_size := (total_height, total_width), order := active_ids }
  else
    { pos := (x, y1), vel := (state.vel.1, state.vel.2),
      total_size := (total_height, total_width), order := active_ids }

/-- `main_physics_loop` including its guard: `active_ids =
    sorted(active_picos.keys()); if not active_ids: return`. `none` models
    the early return with no state change or publish. -/
def main_physics_loop (picos : List (Int × Rat)) (state : BallState) :
    Option BallState :=
  let active_ids := sorted_keys picos
  if active_ids = [] then none
  else some (main_physics_tick state active_ids)

/-! ### Viewport projection

`update_display` (main.py lines 128-154): the early return when `MY_ID`
is not in `order` and the `is_on_my_screen` test decide whether the ball
is drawn; when it is, the renderer receives `(local_x, global_y)`.
The function below returns that pair, `none` when nothing is visible. -/

def update_display (ball : BallState) (my_id : Int) : Option (Int × Int) :=
  if my_id ∈ ball.order then
    let global_x := ball.pos.1
    let global_y := ball.pos.2
    let my_index : Int := (ball.order.indexOf my_id : Int)
    let my_min_col := my_index * SCREEN_WIDTH
    let my_max_col := my_index * SCREEN_WIDTH + (SCREEN_WIDTH - 1)
    if my_min_col ≤ global_x ∧ global_x ≤ my_max_col then
      some (global_x - my_min_col, global_y)
    else
      none
  else
    none

/-! ### MQTT receive callback

`mqtt_callback` (main.py lines 63-85). The payload is `json.loads` output:
`Option Json` models the parse result, `none` meaning `json.loads` raised
(the `except` clause then prints the error and leaves all state as it was).
`Json` mirrors the values `json.loads` can produce; JSON numbers in this
protocol are Python ints. `current_ball_state` is stored as the raw parsed
value, exactly as the assignment `current_ball_state = data` does. -/

inductive Json where
  | null
  | bool (b : Bool)
  | num (n : Int)
  | str (s : String)
  | arr (elems : List Json)
  | obj (fields : List (String × Json))

/-- Python dict field access `data.get("id")` on a parsed object. When the
    source text had duplicate keys, `json.loads` keeps the last one, hence
    the reverse scan. -/
def get_field (fields : List (String × Json)) (key : String) : Option Json :=
  (fields.reverse.find? (fun p => p.1 == key)).map (·.2)

/-- Equality of the hashable (scalar) JSON values that can serve as dict
    keys; lists and dicts are unhashable in Python and never reach a key
    comparison. -/
def scalar_eq : Json → Json → Bool
  | .null, .null => true
  | .bool a, .bool b => a == b
  | .num a, .num b => a == b
  | .str a, .str b => a == b
  | _, _ => false

/-- The dict assignment `active_picos[pico_id] = now` for a scalar key. -/
def dict_insert (table : List (Json × Rat)) (key : Json) (now : Rat) :
    List (Json × Rat) :=
  if table.any (fun p => scalar_eq p.1 key) then
    table.map (fun p => if scalar_eq p.1 key then (p.1, now) else p)
  else
    table ++ [(key, now)]

/-- The two globals `mqtt_callback` may mutate. -/
structure CallbackState where
  current_ball_state : Json
  active_picos : List (Json × Rat)

/-- `mqtt_callback` as a state transformer. Any exception inside the `try`
    block (parse failure; `.get` on a non-dict, an `AttributeError`;
    indexing the dict with an unhashable id, a `TypeError`) is caught by
    the `except` clause after no mutation has happened, so those paths
    return the state unchanged. `data.get("id")` yields Python `None` both
    when the key is absent and when it maps to JSON `null`. -/
def mqtt_callback (topic : String) (parsed : Option Json) (now : Rat)
    (st : CallbackState) : CallbackState :=
  match parsed with
  | none => st
  | some data =>
    if topic == TOPIC_HEARTBEAT then
      match data with
      | .obj fields =>
        match get_field fields "id" with
        | none => st
        | some .null => st
        | some (.arr _) => st
        | some (.obj _) => st
        | some v => { st with active_picos := dict_insert st.active_picos v now }
      | _ => st
    else if topic == TOPIC_BALL_POS then
      { st with current_ball_state := data }
    else
      st

/-! ### Spec-side definitions for comparison -/

/-- The vertical update rule exactly as the spec sentence states it:
    reflect only when `y + vy` would leave `[0, height-1]`, clamping to the
    violated boundary; otherwise advance with `vy` unchanged. -/
def spec_vertical_rule (height y vy : Int) : Int × Int :=
  if y + vy < 0 then (0, -vy)
  else if y + vy > height - 1 then (height - 1, -vy)
  else (y + vy, vy)

/-- The vertical update rule the source actually implements: bounce as soon
    as the moved `y` reaches or passes a boundary (`y + vy ≤ 0`, or
    `y + vy ≥ height - 1`). -/
def amended_vertical_rule (height y vy : Int) : Int × Int :=
  if y + vy ≤ 0 then (0, -vy)
  else if y + vy ≥ height - 1 then (height - 1, -vy)
  else (y + vy, vy)

/-- One tick of the physics as a relation on `(state, live_ids)` pairs,
    one constructor per branch of the source's vertical-axis conditional.
    Used to state that the tick is deterministic: the relation is
    functional and `main_physics_tick` implements it. -/
inductive TickStep : BallState → List Int → BallState → Prop where
  | bounce_low : ∀ (s : BallState) (ids : List Int), ids ≠ [] →
      s.pos.2 + s.vel.2 ≤ 0 →
      TickStep s ids
        { pos := ((s.pos.1 + s.vel.1) % ((ids.length : Int) * SCREEN_WIDTH), 0),
          vel := (s.vel.1, -s.vel.2),
          total_size := (SCREEN_HEIGHT, (ids.length : Int) * SCREEN_WIDTH),
          order := ids }
  | bounce_high : ∀ (s : BallState) (ids : List Int), ids ≠ [] →
      ¬(s.pos.2 + s.vel.2 ≤ 0) → s.pos.2 + s.vel.2 ≥ SCREEN_HEIGHT - 1 →
      TickStep s ids
        { pos := ((s.pos.1 + s.vel.1) % ((ids.length : Int) * SCREEN_WIDTH),
            SCREEN_HEIGHT - 1),
          vel := (s.vel.1, -s.vel.2),
          total_size := (SCREEN_HEIGHT, (ids.length : Int) * SCREEN_WIDTH),
          order := ids }
  | glide : ∀ (s : BallState) (ids : List Int), ids ≠ [] →
      ¬(s.pos.2 + s.vel.2 ≤ 0) → ¬(s.pos.2 + s.vel.2 ≥ SCREEN_HEIGHT - 1) →
      TickStep s ids
        { pos := ((s.pos.1 + s.vel.1) % ((ids.length : Int) * SCREEN_WIDTH),
            s.pos.2 + s.vel.2),
          vel := s.vel,
          total_size := (SCREEN_HEIGHT, (ids.length : Int) * SCREEN_WIDTH),
          order := ids }

/-! ### Basic facts about the tick -/

theorem tick_pos_x (s : BallState) (ids : List Int) :
    (main_physics_tick s ids).pos.1 =
      (s.pos.1 + s.vel.1) % ((ids.length : Int) * SCREEN_WIDTH) := by
  simp only [main_physics_tick]
  split_ifs <;> rfl

theorem tick_vel_x (s : BallState) (ids : List Int) :
    (main_physics_tick s ids).vel.1 = s.vel.1 := by
  simp only [main_physics_tick]
  split_ifs <;> rfl

theorem tick_order (s : BallState) (ids : List Int) :
    (main_physics_tick s ids).order = ids := by
  simp only [main_physics_tick]
  split_ifs <;> rfl

theorem tick_total_size (s : BallState) (ids : List Int) :
    (main_physics_tick s ids).total_size =
      (SCREEN_HEIGHT, (ids.length : Int) * SCREEN_WIDTH) := by
  simp only [main_physics_tick]
  split_ifs <;> rfl

theorem tick_y_bounds (s : BallState) (ids : List Int) :
    0 ≤ (main_physics_tick s ids).pos.2 ∧
      (main_physics_tick s ids).pos.2 ≤ SCREEN_HEIGHT - 1 := by
  simp only [main_physics_tick, SCREEN_HEIGHT]
  split_ifs with h1 h2 <;> constructor <;> simp <;> omega

/-! ### Dictionary lemmas for the membership table -/

/-- Keys of the membership table, in insertion order. -/
def keys (t : List (Int × Rat)) : List Int := t.map (·.1)

theorem any_eq_isSome_lookup (t : List (Int × Rat)) (id : Int) :
    (t.any fun p => p.1 == id) = (lookup_id t id).isSome := by
  induction t with
  | nil => rfl
  | cons p rest ih =>
    by_cases h : p.1 = id <;> simp [lookup_id, h, ih]

theorem lookup_map_refresh (t : List (Int × Rat)) (id : Int) (now : Rat)
    (id' : Int) :
    lookup_id (t.map fun p => if p.1 == id then (p.1, now) else p) id' =
      if id' = id then (lookup_id t id).map (fun _ => now)
      else lookup_id t id' := by
  simp only [beq_iff_eq]
  induction t with
  | nil => by_cases h : id' = id <;> simp [lookup_id, h]
  | cons p rest ih =>
    by_cases h : id' = id
    · subst h
      by_cases hp : p.1 = id' <;> simp [lookup_id, hp, ih]
    · have h2 : id ≠ id' := fun e => h e.symm
      by_cases hp : p.1 = id
      · have hp' : p.1 ≠ id' := by rw [hp]; exact h2
        simp [lookup_id, hp, hp', h, h2, ih]
      · by_cases hq : p.1 = id' <;> simp [lookup_id, hp, hq, h, ih]

theorem lookup_append_single (t : List (Int × Rat)) (e : Int × Rat)
    (id' : Int) :
    lookup_id (t ++ [e]) id' =
      match lookup_id t id' with
      | some v => some v
      | none => if e.1 = id' then some e.2 else none := by
  induction t with
  | nil => simp [lookup_id]
  | cons p rest ih =>
    by_cases hp : p.1 = id' <;> simp [lookup_id, hp, ih]

theorem lookup_record_heartbeat (t : List (Int × Rat)) (id : Int) (now : Rat)
    (id' : Int) :
    lookup_id (record_heartbeat t id now) id' =
      if id' = id then some now else lookup_id t id' := by
  unfold record_heartbeat
  by_cases hany : (t.any fun p => p.1 == id) = true
  · rw [if_pos hany, lookup_map_refresh]
    by_cases h : id' = id
    · rw [any_eq_isSome_lookup] at hany
      obtain ⟨v, hv⟩ := Option.isSome_iff_exists.mp hany
      simp [h, hv]
    · simp [h]
  · rw [if_neg hany, lookup_append_single]
    have hnone : lookup_id t id = none := by
      rw [any_eq_isSome_lookup] at hany
      exact Option.not_isSome_iff_eq_none.mp hany
    by_cases h : id' = id
    · subst h; simp [hnone]
    · have h2 : id ≠ id' := fun e => h e.symm
      cases hl : lookup_id t id' with
      | some v => simp [h]
      | none => simp [h, h2]

theorem lookup_foldl_record (events : List (Int × Rat)) (t : List (Int × Rat))
    (id : Int) :
    lookup_id (events.foldl (fun t e => record_heartbeat t e.1 e.2) t) id =
      match last_heartbeat events id with
      | some ts => some ts
      | none => lookup_id t id := by
  induction events generalizing t with
  | nil => simp [last_heartbeat]
  | cons e rest ih =>
    rw [List.foldl_cons, ih]
    rw [show last_heartbeat (e :: rest) id =
      (match last_heartbeat rest id with
       | some t => some t
       | none => if e.1 = id then some e.2 else none) from rfl]
    cases hr : last_heartbeat rest id with
    | some ts => rfl
    | none =>
      rw [lookup_record_heartbeat]
      by_cases h : e.1 = id
      · subst h; simp
      · have h' : id ≠ e.1 := fun e' => h e'.symm
        simp [h, h']

theorem lookup_build_table (events : List (Int × Rat)) (id : Int) :
    lookup_id (build_table events) id = last_heartbeat events id := by
  rw [build_table, lookup_foldl_record]
  cases h : last_heartbeat events id <;> simp [lookup_id]

theorem keys_record_heartbeat (t : List (Int × Rat)) (id : Int) (now : Rat) :
    keys (record_heartbeat t id now) =
      if (t.any fun p => p.1 == id) then keys t else keys t ++ [id] := by
  unfold record_heartbeat keys
  by_cases hany : (t.any fun p => p.1 == id) = true
  · rw [if_pos hany, if_pos hany, List.map_map]
    refine List.map_congr_left fun p _ => ?_
    by_cases h : p.1 = id <;> simp [h]
  · rw [if_neg hany, if_neg hany]; simp

theorem nodup_keys_record (t : List (Int × Rat)) (id : Int) (now : Rat)
    (h : (keys t).Nodup) : (keys (record_heartbeat t id now)).Nodup := by
  rw [keys_record_heartbeat]
  by_cases hany : (t.any fun p => p.1 == id) = true
  · rwa [if_pos hany]
  · rw [if_neg hany]
    have hid : id ∉ keys t := by
      intro hmem
      apply hany
      rw [List.any_eq_true]
      obtain ⟨p, hp, hfst⟩ := List.mem_map.mp hmem
      exact ⟨p, hp, by simp [hfst]⟩
    simp [List.nodup_append, h, List.disjoint_singleton, hid]

theorem nodup_keys_build (events : List (Int × Rat)) :
    (keys (build_table events)).Nodup := by
  suffices h : ∀ t : List (Int × Rat), (keys t).Nodup →
      (keys (events.foldl (fun t e => record_heartbeat t e.1 e.2) t)).Nodup by
    exact h [] (by simp [keys])
  induction events with
  | nil => intro t ht; exact ht
  | cons e rest ih =>
    intro t ht
    exact ih _ (nodup_keys_record t e.1 e.2 ht)

theorem mem_keys_prune (t : List (Int × Rat)) (now : Rat) (id : Int)
    (h : (keys t).Nodup) :
    id ∈ keys (prune_picos t now) ↔
      ∃ ts, lookup_id t id = some ts ∧ ¬(now - ts > PICO_TIMEOUT_S) := by
  induction t with
  | nil => simp [prune_picos, keys, lookup_id]
  | cons p rest ih =>
    rw [keys, List.map_cons, List.nodup_cons] at h
    obtain ⟨hp, hrest⟩ := h
    by_cases hid : p.1 = id
    · subst hid
      have hlook : lookup_id (p :: rest) p.1 = some p.2 := by
        rw [lookup_id, if_pos rfl]
      rw [hlook]
      by_cases hkeep : now - p.2 > PICO_TIMEOUT_S
      · have hdrop : prune_picos (p :: rest) now = prune_picos rest now := by
          simp [prune_picos, List.filter_cons, hkeep]
        rw [hdrop]
        constructor
        · intro hmem
          exact absurd (((List.filter_sublist rest).map (·.1)).subset hmem) hp
        · rintro ⟨ts, hts, hfresh⟩
          injection hts with hts'
          subst hts'
          exact absurd hkeep hfresh
      · have hkept : prune_picos (p :: rest) now = p :: prune_picos rest now := by
          simp [prune_picos, List.filter_cons, hkeep]
        rw [hkept, keys, List.map_cons]
        constructor
        · intro _; exact ⟨p.2, rfl, hkeep⟩
        · intro _; exact List.mem_cons_self _ _
    · have hne : id ≠ p.1 := fun e => hid e.symm
      have hlook : lookup_id (p :: rest) id = lookup_id rest id := by
        rw [lookup_id, if_neg hid]
      rw [hlook]
      by_cases hkeep : now - p.2 > PICO_TIMEOUT_S
      · have hdrop : prune_picos (p :: rest) now = prune_picos rest now := by
          simp [prune_picos, List.filter_cons, hkeep]
        rw [hdrop]
        exact ih hrest
      · have hkept : prune_picos (p :: rest) now = p :: prune_picos rest now := by
          simp [prune_picos, List.filter_cons, hkeep]
        rw [hkept, keys, List.map_cons, List.mem_cons]
        simp only [hne, false_or]
        exact ih hrest

theorem mem_live_ids (table : List (Int × Rat)) (now : Rat) (id : Int)
    (h : (keys table).Nodup) :
    id ∈ live_ids table now ↔
      ∃ ts, lookup_id table id = some ts ∧ now - ts ≤ PICO_TIMEOUT_S := by
  rw [live_ids, sorted_keys,
    (List.perm_insertionSort (· ≤ ·) ((prune_picos table now).map (·.1))).mem_iff]
  rw [show (prune_picos table now).map (·.1) = keys (prune_picos table now)
    from rfl]
  rw [mem_keys_prune table now id h]
  simp only [not_lt]

/-! ### Claim theorems -/

/-- C1 (counterexample): the claim's vertical rule ("reflect only when
    `y + vy` would leave `[0, height-1]`, otherwise advance with `vy`
    unchanged") is falsified by the source at `y = 1`, `vy = -1`:
    `y + vy = 0` stays inside the interval, so the claim keeps `vy = -1`,
    but the code's `pos[1] <= 0` branch fires and negates `vy` to `1`. -/
theorem C1_vertical_rule_counterexample :
    (main_physics_tick
        { pos := (0, 1), vel := (0, -1), total_size := (16, 8), order := [0] }
        [0]).vel.2 ≠
      (spec_vertical_rule SCREEN_HEIGHT 1 (-1)).2 := by
  decide

/-- C1 (amended): the tick's vertical axis bounces as soon as the moved
    `y` reaches or passes a boundary: if `y + vy ≤ 0` the new `y` is `0`
    and `vy` is negated; if `y + vy ≥ height - 1` the new `y` is
    `height - 1` and `vy` is negated; otherwise `y` advances to `y + vy`
    with `vy` unchanged. In particular, with height 16, `y = 15`,
    `vy = 1` the tick yields `y = 15`, `vy = -1`, and a subsequent tick
    from there yields `y = 14` with `vy` still `-1`. -/
theorem C1_vertical_bounce :
    (∀ (s : BallState) (ids : List Int),
      ((main_physics_tick s ids).pos.2, (main_physics_tick s ids).vel.2) =
        amended_vertical_rule SCREEN_HEIGHT s.pos.2 s.vel.2)
    ∧ (main_physics_tick
        { pos := (3, 15), vel := (1, 1), total_size := (16, 16), order := [0, 1] }
        [0, 1]).pos.2 = 15
    ∧ (main_physics_tick
        { pos := (3, 15), vel := (1, 1), total_size := (16, 16), order := [0, 1] }
        [0, 1]).vel.2 = -1
    ∧ (main_physics_tick
        (main_physics_tick
          { pos := (3, 15), vel := (1, 1), total_size := (16, 16), order := [0, 1] }
          [0, 1])
        [0, 1]).pos.2 = 14
    ∧ (main_physics_tick
        (main_physics_tick
          { pos := (3, 15), vel := (1, 1), total_size := (16, 16), order := [0, 1] }
          [0, 1])
        [0, 1]).vel.2 = -1 := by
  refine ⟨fun s ids => ?_, by decide, by decide, by decide, by decide⟩
  simp only [main_physics_tick, amended_vertical_rule]
  split_ifs <;> rfl

/-- C2: for every sequence of recorded heartbeats and every `now`, an id
    is in the pruned live set iff its most recent heartbeat is within
    `PICO_TIMEOUT_S` of `now`; with heartbeats for ids 0, 1, 2 at `t = 0`
    and pruning evaluated at `t = 4` (timeout 3.5), the live set is
    empty. -/
theorem C2_membership_pruning :
    (∀ (events : List (Int × Rat)) (now : Rat) (id : Int),
      id ∈ live_ids (build_table events) now ↔
        ∃ ts, last_heartbeat events id = some ts ∧ now - ts ≤ PICO_TIMEOUT_S)
    ∧ live_ids (build_table [(0, 0), (1, 0), (2, 0)]) 4 = [] := by
  constructor
  · intro events now id
    rw [mem_live_ids _ _ _ (nodup_keys_build events), lookup_build_table]
  · norm_num [live_ids, build_table, record_heartbeat, prune_picos, sorted_keys,
      PICO_TIMEOUT_S, List.any, List.filter, List.foldl, List.map]

/-- C3: leader election takes the head of the sorted live-id list, which
    for a sorted non-empty list is the minimum element; `elect [0,1,2] = 0`,
    `elect [1,2] = 1`, and after erasing the current leader the next
    election again returns the minimum of what remains. -/
theorem C3_leader_election :
    (∀ (ids : List Int) (h : ids ≠ []), ids.Sorted (· ≤ ·) →
      elect ids h ∈ ids ∧ ∀ x ∈ ids, elect ids h ≤ x)
    ∧ elect [0, 1, 2] (by simp) = 0
    ∧ elect [1, 2] (by simp) = 1
    ∧ (∀ (ids : List Int) (h : ids ≠ []), ids.Sorted (· ≤ ·) →
        ∀ (h2 : ids.erase (elect ids h) ≠ []),
          elect (ids.erase (elect ids h)) h2 ∈ ids.erase (elect ids h) ∧
          ∀ x ∈ ids.erase (elect ids h),
            elect (ids.erase (elect ids h)) h2 ≤ x) := by
  have min_of_sorted : ∀ (ids : List Int) (h : ids ≠ []), ids.Sorted (· ≤ ·) →
      elect ids h ∈ ids ∧ ∀ x ∈ ids, elect ids h ≤ x := by
    intro ids h hs
    cases ids with
    | nil => exact absurd rfl h
    | cons a rest =>
      refine ⟨List.mem_cons_self _ _, fun x hx => ?_⟩
      rcases List.mem_cons.mp hx with rfl | hx
      · exact le_refl _
      · exact (List.sorted_cons.mp hs).1 x hx
  refine ⟨min_of_sorted, rfl, rfl, fun ids h hs h2 => ?_⟩
  exact min_of_sorted _ h2
    (List.Pairwise.sublist (List.erase_sublist (elect ids h) ids) hs)

/-- C3 witness: the general minimum property instantiated at `[0, 1, 2]`. -/
theorem C3_leader_election_witness :
    elect [0, 1, 2] (by simp) ∈ [0, 1, 2] ∧
    ∀ x ∈ [0, 1, 2], elect [0, 1, 2] (by simp) ≤ x :=
  C3_leader_election.1 [0, 1, 2] (by simp) (by decide)

/-- C4: the tick sets the new x-coordinate to
    `(x + vx) mod (slice_width * n)` for `n` live nodes, never reflects
    horizontally (`vx` unchanged), and the horizontal handling has no
    effect on the y-velocity (the new `vy` depends only on `y` and `vy`);
    with slice width 8 and 2 live nodes, `x = 15`, `vx = 1` wraps to
    `x = 0` with the y-velocity unaffected. -/
theorem C4_horizontal_wrap :
    (∀ (s : BallState) (ids : List Int),
      (main_physics_tick s ids).pos.1 =
        (s.pos.1 + s.vel.1) % (SCREEN_WIDTH * (ids.length : Int)) ∧
      (main_physics_tick s ids).vel.1 = s.vel.1)
    ∧ (∀ (s s' : BallState) (ids ids' : List Int),
        s.pos.2 = s'.pos.2 → s.vel.2 = s'.vel.2 →
        (main_physics_tick s ids).vel.2 = (main_physics_tick s' ids').vel.2)
    ∧ (main_physics_tick
        { pos := (15, 3), vel := (1, 1), total_size := (16, 16), order := [0, 1] }
        [0, 1]).pos.1 = 0
    ∧ (main_physics_tick
        { pos := (15, 3), vel := (1, 1), total_size := (16, 16), order := [0, 1] }
        [0, 1]).vel.2 = 1 := by
  refine ⟨fun s ids => ⟨?_, tick_vel_x s ids⟩,
    fun s s' ids ids' hy hvy => ?_, by decide, by decide⟩
  · rw [tick_pos_x, Int.mul_comm]
  · simp only [main_physics_tick]
    rw [hy, hvy]
    split_ifs <;> rfl

/-- C4 witness: two states agreeing on `y` and `vy` but differing in
    `x`, `vx` and live set get the same new y-velocity. -/
theorem C4_horizontal_wrap_witness :
    (main_physics_tick
        { pos := (0, 3), vel := (1, 1), total_size := (16, 8), order := [0] }
        [0]).vel.2 =
      (main_physics_tick
        { pos := (9, 3), vel := (-2, 1), total_size := (16, 16), order := [0, 1] }
        [0, 1]).vel.2 :=
  C4_horizontal_wrap.2.1 _ _ [0] [0, 1] rfl rfl

/-- C5: the viewport projection reports nothing visible exactly when the
    node id is absent from `order` or the global x lies outside the
    node's column range `[i*8, i*8+7]` (`i` its index in `order`), and
    otherwise yields `(global_x - i*8, global_y)`; with
    `order = [0,1,2]` and `x = 10`, node 1 sees local `(2, y)` while
    node 2 sees nothing. -/
theorem C5_viewport_projection :
    (∀ (ball : BallState) (my_id : Int),
      (update_display ball my_id = none ↔
        my_id ∉ ball.order ∨
        ball.pos.1 < (ball.order.indexOf my_id : Int) * SCREEN_WIDTH ∨
        (ball.order.indexOf my_id : Int) * SCREEN_WIDTH + (SCREEN_WIDTH - 1) <
          ball.pos.1) ∧
      (my_id ∈ ball.order →
        (ball.order.indexOf my_id : Int) * SCREEN_WIDTH ≤ ball.pos.1 →
        ball.pos.1 ≤ (ball.order.indexOf my_id : Int) * SCREEN_WIDTH +
          (SCREEN_WIDTH - 1) →
        update_display ball my_id =
          some (ball.pos.1 - (ball.order.indexOf my_id : Int) * SCREEN_WIDTH,
            ball.pos.2)))
    ∧ update_display
        { pos := (10, 5), vel := (1, 1), total_size := (16, 24), order := [0, 1, 2] }
        1 = some (2, 5)
    ∧ update_display
        { pos := (10, 5), vel := (1, 1), total_size := (16, 24), order := [0, 1, 2] }
        2 = none := by
  refine ⟨fun ball my_id => ⟨?_, fun hmem hlo hhi => ?_⟩, by decide, by decide⟩
  · simp only [update_display]
    split_ifs with h1 h2
    · simp only [h1, not_true, false_or]
      constructor
      · intro hc; exact absurd hc (by simp)
      · intro hc; omega
    · simp only [h1, not_true, false_or]
      constructor
      · intro _; omega
      · intro _; trivial
    · simp [h1]
  · simp [update_display, hmem, hlo, hhi]

/-- C5 witness: the visible-case formula instantiated at node 1 of the
    three-node example. -/
theorem C5_viewport_projection_witness :
    update_display
        { pos := (10, 5), vel := (1, 1), total_size := (16, 24), order := [0, 1, 2] }
        1 =
      some (10 - (([0, 1, 2] : List Int).indexOf 1 : Int) * SCREEN_WIDTH, 5) :=
  (C5_viewport_projection.1 _ 1).2 (by decide) (by decide) (by decide)

/-- C6: every state the leader's tick emits has `order` equal to the
    sorted live ids at tick time (sorted, no stale or missing ids) and
    `total_size` with fixed height `SCREEN_HEIGHT` and width
    `SCREEN_WIDTH` times the number of live nodes. -/
theorem C6_emitted_state :
    ∀ (picos : List (Int × Rat)) (s s' : BallState),
      main_physics_loop picos s = some s' →
        s'.order = sorted_keys picos ∧
        s'.order.Sorted (· ≤ ·) ∧
        (∀ id, id ∈ s'.order ↔ id ∈ keys picos) ∧
        s'.total_size =
          (SCREEN_HEIGHT, SCREEN_WIDTH * ((keys picos).length : Int)) := by
  intro picos s s' h
  rw [main_physics_loop] at h
  by_cases hnil : sorted_keys picos = []
  · simp [hnil] at h
  · simp only [if_neg hnil, Option.some.injEq] at h
    subst h
    refine ⟨tick_order s _, ?_, ?_, ?_⟩
    · rw [tick_order]
      exact List.sorted_insertionSort (· ≤ ·) _
    · intro id
      rw [tick_order, sorted_keys,
        (List.perm_insertionSort (· ≤ ·) (picos.map (·.1))).mem_iff]
      exact Iff.rfl
    · rw [tick_total_size, sorted_keys,
        (List.perm_insertionSort (· ≤ ·) (picos.map (·.1))).length_eq,
        Int.mul_comm]
      rfl

/-- C6 witness: the invariants at a singleton membership table. -/
theorem C6_emitted_state_witness :
    (main_physics_tick
        { pos := (0, 0), vel := (1, 1), total_size := (16, 8), order := [0] }
        [0]).order = sorted_keys [(0, 0)] ∧
    (main_physics_tick
        { pos := (0, 0), vel := (1, 1), total_size := (16, 8), order := [0] }
        [0]).order.Sorted (· ≤ ·) ∧
    (∀ id, id ∈ (main_physics_tick
        { pos := (0, 0), vel := (1, 1), total_size := (16, 8), order := [0] }
        [0]).order ↔ id ∈ keys [(0, 0)]) ∧
    (main_physics_tick
        { pos := (0, 0), vel := (1, 1), total_size := (16, 8), order := [0] }
        [0]).total_size =
      (SCREEN_HEIGHT, SCREEN_WIDTH * ((keys [(0, 0)]).length : Int)) :=
  C6_emitted_state [(0, 0)]
    { pos := (0, 0), vel := (1, 1), total_size := (16, 8), order := [0] } _ rfl

/-- C7: a payload on the shared-state topic that fails to parse is
    discarded by the receive callback: the cached ball state and the
    membership table are both left exactly as they were, with no crash
    (the callback is total). -/
theorem C7_malformed_payload_discarded :
    ∀ (now : Rat) (st : CallbackState),
      mqtt_callback TOPIC_BALL_POS none now st = st := by
  intro now st
  rfl

/-- C8: the tick is fully reproducible from the `(state, live_ids)` pair:
    the step relation is functional (two results from equal inputs are
    equal), `main_physics_tick` realizes it, and chaining two steps, the
    second taking the first's output, lands exactly on the double
    application of the tick function. -/
theorem C8_tick_deterministic :
    (∀ (s : BallState) (ids : List Int) (s1 s2 : BallState),
      TickStep s ids s1 → TickStep s ids s2 → s1 = s2)
    ∧ (∀ (s : BallState) (ids : List Int), ids ≠ [] →
        TickStep s ids (main_physics_tick s ids))
    ∧ (∀ (s : BallState) (ids : List Int) (s1 s2 : BallState),
        TickStep s ids s1 → TickStep s1 ids s2 →
        s2 = main_physics_tick (main_physics_tick s ids) ids) := by
  have uniq : ∀ (s : BallState) (ids : List Int) (s1 s2 : BallState),
      TickStep s ids s1 → TickStep s ids s2 → s1 = s2 := by
    intro s ids s1 s2 t1 t2
    cases t1 <;> cases t2 <;> first | rfl | contradiction
  have impl : ∀ (s : BallState) (ids : List Int), ids ≠ [] →
      TickStep s ids (main_physics_tick s ids) := by
    intro s ids h
    by_cases h1 : s.pos.2 + s.vel.2 ≤ 0
    · have e : main_physics_tick s ids =
          { pos := ((s.pos.1 + s.vel.1) % ((ids.length : Int) * SCREEN_WIDTH), 0),
            vel := (s.vel.1, -s.vel.2),
            total_size := (SCREEN_HEIGHT, (ids.length : Int) * SCREEN_WIDTH),
            order := ids } := by
        simp only [main_physics_tick]
        rw [if_pos h1]
      rw [e]
      exact TickStep.bounce_low s ids h h1
    · by_cases h2 : s.pos.2 + s.vel.2 ≥ SCREEN_HEIGHT - 1
      · have e : main_physics_tick s ids =
            { pos := ((s.pos.1 + s.vel.1) % ((ids.length : Int) * SCREEN_WIDTH),
                SCREEN_HEIGHT - 1),
              vel := (s.vel.1, -s.vel.2),
              total_size := (SCREEN_HEIGHT, (ids.length : Int) * SCREEN_WIDTH),
              order := ids } := by
          simp only [main_physics_tick]
          rw [if_neg h1, if_pos h2]
        rw [e]
        exact TickStep.bounce_high s ids h h1 h2
      · have e : main_physics_tick s ids =
            { pos := ((s.pos.1 + s.vel.1) % ((ids.length : Int) * SCREEN_WIDTH),
                s.pos.2 + s.vel.2),
              vel := s.vel,
              total_size := (SCREEN_HEIGHT, (ids.length : Int) * SCREEN_WIDTH),
              order := ids } := by
          simp only [main_physics_tick]
          rw [if_neg h1, if_neg h2]
        rw [e]
        exact TickStep.glide s ids h h1 h2
  have nonempty_of_step : ∀ {s : BallState} {ids : List Int} {s' : BallState},
      TickStep s ids s' → ids ≠ [] := by
    intro s ids s' t
    cases t <;> assumption
  refine ⟨uniq, impl, fun s ids s1 s2 t1 t2 => ?_⟩
  have h := nonempty_of_step t1
  have e1 : s1 = main_physics_tick s ids := uniq s ids s1 _ t1 (impl s ids h)
  rw [← e1]
  exact uniq s1 ids s2 _ t2 (impl s1 ids h)

/-- C8 witness: the implementation clause at a concrete state and live
    set. -/
theorem C8_tick_deterministic_witness :
    TickStep
      { pos := (0, 5), vel := (1, 1), total_size := (16, 8), order := [0] }
      [0]
      (main_physics_tick
        { pos := (0, 5), vel := (1, 1), total_size := (16, 8), order := [0] }
        [0]) :=
  C8_tick_deterministic.2.1 _ [0] (by decide)

/-- C9: after one tick with a non-empty live set, the position lies
    inside the canvas computed at that tick: `0 ≤ x ≤ width - 1` and
    `0 ≤ y ≤ height - 1`, whatever the input position was. -/
theorem C9_position_in_bounds :
    ∀ (s : BallState) (ids : List Int), ids ≠ [] →
      0 ≤ (main_physics_tick s ids).pos.1 ∧
      (main_physics_tick s ids).pos.1 ≤ (main_physics_tick s ids).total_size.2 - 1 ∧
      0 ≤ (main_physics_tick s ids).pos.2 ∧
      (main_physics_tick s ids).pos.2 ≤ (main_physics_tick s ids).total_size.1 - 1 := by
  intro s ids h
  have hlen : (0 : Int) < (ids.length : Int) := by
    exact_mod_cast List.length_pos.mpr h
  have hw : (0 : Int) < (ids.length : Int) * SCREEN_WIDTH :=
    mul_pos hlen (by norm_num [SCREEN_WIDTH])
  have hx0 : 0 ≤ (s.pos.1 + s.vel.1) % ((ids.length : Int) * SCREEN_WIDTH) :=
    Int.emod_nonneg _ (ne_of_gt hw)
  have hx1 : (s.pos.1 + s.vel.1) % ((ids.length : Int) * SCREEN_WIDTH) <
      (ids.length : Int) * SCREEN_WIDTH :=
    Int.emod_lt_of_pos _ hw
  have hy := tick_y_bounds s ids
  refine ⟨?_, ?_, hy.1, ?_⟩
  · rw [tick_pos_x]
    exact hx0
  · rw [tick_pos_x, tick_total_size]
    exact Int.le_sub_one_iff.mpr hx1
  · rw [tick_total_size]
    exact hy.2

/-- C9 witness: an input far outside a shrunken canvas is pulled back in
    bounds by a single tick. -/
theorem C9_position_in_bounds_witness :
    0 ≤ (main_physics_tick
        { pos := (23, 40), vel := (1, 1), total_size := (16, 24), order := [0, 1, 2] }
        [0]).pos.1 ∧
    (main_physics_tick
        { pos := (23, 40), vel := (1, 1), total_size := (16, 24), order := [0, 1, 2] }
        [0]).pos.1 ≤ (main_physics_tick
        { pos := (23, 40), vel := (1, 1), total_size := (16, 24), order := [0, 1, 2] }
        [0]).total_size.2 - 1 ∧
    0 ≤ (main_physics_tick
        { pos := (23, 40), vel := (1, 1), total_size := (16, 24), order := [0, 1, 2] }
        [0]).pos.2 ∧
    (main_physics_tick
        { pos := (23, 40), vel := (1, 1), total_size := (16, 24), order := [0, 1, 2] }
        [0]).pos.2 ≤ (main_physics_tick
        { pos := (23, 40), vel := (1, 1), total_size := (16, 24), order := [0, 1, 2] }
        [0]).total_size.1 - 1 :=
  C9_position_in_bounds
    { pos := (23, 40), vel := (1, 1), total_size := (16, 24), order := [0, 1, 2] }
    [0] (by decide)

/-- C10: a heartbeat payload that parses to an object with no `id` field,
    or with `id` mapped to JSON null, leaves the membership table (and in
    fact the whole callback state) completely unchanged. -/
theorem C10_heartbeat_without_id :
    ∀ (fields : List (String × Json)) (now : Rat) (st : CallbackState),
      (get_field fields "id" = none ∨ get_field fields "id" = some Json.null) →
      mqtt_callback TOPIC_HEARTBEAT (some (Json.obj fields)) now st = st := by
  intro fields now st h
  rcases h with h | h <;> simp [mqtt_callback, h]

/-- C10 witness: a parsed heartbeat object carrying only an unrelated
    field changes nothing. -/
theorem C10_heartbeat_without_id_witness :
    mqtt_callback TOPIC_HEARTBEAT (some (Json.obj [("x", Json.num 3)])) 0
        { current_ball_state := Json.null, active_picos := [] } =
      { current_ball_state := Json.null, active_picos := [] } :=
  C10_heartbeat_without_id [("x", Json.num 3)] 0
    { current_ball_state := Json.null, active_picos := [] } (Or.inl rfl)

end Mosquito
